import Mathlib

/-!
A shallow embedding of the self-play / training-loop layer of the
alphago repository (src/alphago/alphago.py and src/alphago/player.py),
together with theorems checking the natural-language specification
against it.

Python lists are modelled as Lean lists; in-place mutation of a list
argument is modelled by returning the final value of that argument.
Python dicts (and OrderedDict) are modelled as association lists with
insert-or-overwrite semantics.  NumPy float64 scalars are modelled by
the type `PyFloat` below (a rational payload plus the non-finite
values), so the discrete behaviour of `np.nan_to_num` is captured
exactly.  Fallible operations (e.g. `list.pop` on an empty list)
return `Option`.
-/

namespace AlphaGo

/-- Model of a Python/NumPy float64 value: a finite value (modelled as a
rational), NaN, +inf or -inf. -/
inductive PyFloat where
  | finite (q : ℚ)
  | nan
  | posInf
  | negInf
deriving DecidableEq, Repr

/-- The largest finite float64, `np.finfo(np.float64).max` =
1.7976931348623157e308, exactly (2^53 - 1) * 2^971. -/
def float64Max : ℚ := (2 ^ 53 - 1) * 2 ^ 971

/-- Whether a modelled float is finite. -/
def PyFloat.isFinite : PyFloat → Bool
  | .finite _ => true
  | _ => false

/-- Model of `np.nan_to_num` on one float64 value (default arguments):
NaN becomes 0.0, +inf becomes the largest finite float64, -inf becomes
the most negative finite float64; finite values are unchanged. -/
def nanToNum : PyFloat → PyFloat
  | .finite q => .finite q
  | .nan => .finite 0
  | .posInf => .finite float64Max
  | .negInf => .finite (-float64Max)

/-- A game state's numeric representation: a vector of float64 values
(the flattened NumPy array the estimator consumes). -/
abbrev PyState := List PyFloat

/-- The Game collaborator, at the interface used by
src/alphago/alphago.py: `which_player`, `utility` (a map from player to
scalar, modelled as a function), `initial_state`, terminality and the
successor map `compute_next_states`. -/
structure Game (S A P : Type) where
  initial_state : S
  which_player : S → P
  is_terminal : S → Bool
  compute_next_states : S → List (A × S)
  utility : S → P → ℚ

/-- Lookup in the `action_indices` dictionary (action to dense index).
In Python an absent key raises KeyError; theorems that rely on the
lookup assume the action is present. -/
def lookupIdx {A : Type} [DecidableEq A] : List (A × Nat) → A → Nat
  | [], _ => 0
  | (b, i) :: rest, a => if a = b then i else lookupIdx rest a

/-- Membership of a key in an association list (Python `in` on a dict). -/
def keyMem {A B : Type} [DecidableEq A] (l : List (A × B)) (a : A) : Bool :=
  l.any (fun kv => kv.1 = a)

/-- The dense-policy-vector conversion inlined in
`process_self_play_data` (src/alphago/alphago.py lines 368-370):
start from `np.zeros(len(action_indices))` and, for each `(a, prob)`
in the probability dictionary, set entry `action_indices[a]` to `prob`. -/
def probsToVector {A : Type} [DecidableEq A] (action_indices : List (A × Nat))
    (probs : List (A × ℚ)) : List ℚ :=
  probs.foldl (fun v ap => v.set (lookupIdx action_indices ap.1) ap.2)
    (List.replicate action_indices.length 0)

/-- One training tuple `(non_nan_state, action, probs_vector, z)` as
appended by `process_self_play_data`. -/
structure TrainingTuple (A : Type) where
  state : PyState
  action : A
  probs_vector : List ℚ
  z : ℚ
deriving DecidableEq

/-- Model of `process_self_play_data(states_, actions_, action_probs_,
game, action_indices)` (src/alphago/alphago.py lines 318-376).

The Python function mutates `states_` in place (`states_.pop()`); the
model returns, alongside the produced training data, the final values
of the three list arguments.  `states_.pop()` on an empty list raises
IndexError, modelled by `none`.  The zip over the popped state list,
the actions and the probability dictionaries truncates to the shortest
input, exactly as Python `zip` does. -/
def process_self_play_data {A P : Type} [DecidableEq A]
    (states_ : List PyState) (actions_ : List A)
    (action_probs_ : List (List (A × ℚ))) (game : Game PyState A P)
    (action_indices : List (A × Nat)) :
    Option (List (TrainingTuple A) × List PyState × List A × List (List (A × ℚ))) :=
  match states_.getLast? with
  | none => none
  | some last_state =>
    let states := states_.dropLast
    let training_data :=
      (states.zip (actions_.zip action_probs_)).map (fun sap =>
        let state := sap.1
        let player := game.which_player state
        let z := game.utility last_state player
        let probs_vector := probsToVector action_indices sap.2.2
        let non_nan_state := state.map nanToNum
        { state := non_nan_state, action := sap.2.1,
          probs_vector := probs_vector, z := z })
    some (training_data, states, actions_, action_probs_)

/-- Insert-or-overwrite into an association list, modelling Python dict
assignment `d[k] = v` (an OrderedDict keeps the original position of an
overwritten key and appends a new key at the end). -/
def odInsert {K V : Type} [DecidableEq K] (d : List (K × V)) (k : K) (v : V) :
    List (K × V) :=
  if keyMem d k then d.map (fun kv => if kv.1 = k then (k, v) else kv)
  else d ++ [(k, v)]

/-- Model of `generate_self_play_data(game, estimator, mcts_iters, c_puct,
num_iters, save_file_path=None)` (src/alphago/alphago.py lines 208-231) in
the `save_file_path is None` branch: `data = OrderedDict(); index = 0`,
then `num_iters` times `data[index] = self_play(...)`.  The variable
`index` is initialised once and never changed inside the loop.  The
stochastic result of iteration `i`'s self-play game is supplied by
`play i`.  (The `save_file_path is not None` branch performs file I/O
and, as written, raises before reaching the loop: it passes the path
string to `json.load` and then adds 1 to a maximum taken over string
keys; it is not modelled.) -/
def generate_self_play_data {T : Type} (num_iters : Nat) (play : Nat → T) :
    List (Nat × T) :=
  let index := 0
  (List.range num_iters).foldl (fun data i => odInsert data index (play i)) []

/-- Training-loop configuration: the `evaluate_every` and `win_rate`
arguments of `train_alphago`. -/
structure TrainConfig where
  evaluate_every : Nat
  win_rate : ℚ

/-- The mutable state of `train_alphago`'s loop: the reference
(self-play) estimator's parameters, the candidate (training)
estimator's parameters, and the checkpoint files written so far
(step number paired with the saved parameters). -/
structure TrainState (Params : Type) where
  self_play_player : Params
  training_player : Params
  checkpoints : List (Nat × Params)
deriving DecidableEq

/-- Reading the checkpoint file for a given step: the file named by the
step is whatever was most recently saved under that step, so the last
matching entry wins. -/
def restoreCkpt {Params : Type} : List (Nat × Params) → Nat → Option Params
  | [], _ => none
  | (s, p) :: rest, step =>
    match restoreCkpt rest step with
    | some q => some q
    | none => if step = s then some p else none

/-- Binding the keyword arguments of a Python call, after the positional
arguments have been bound: a keyword naming no parameter raises
TypeError (unexpected keyword argument), a keyword naming an
already-bound parameter raises TypeError (multiple values). -/
def bindKeywords {V : Type} (params : List String) :
    List (String × V) → List (String × V) → Except String (List (String × V))
  | bound, [] => Except.ok bound
  | bound, (k, v) :: rest =>
    if params.contains k then
      if keyMem bound k then
        Except.error ("multiple values for argument " ++ k)
      else
        bindKeywords params (bound ++ [(k, v)]) rest
    else
      Except.error ("unexpected keyword argument " ++ k)

/-- Python call binding for a function with parameter list `params`
(no defaults, no *args/**kwargs), called with positional arguments
`pos` and keyword arguments `kws`: positional arguments bind to the
leading parameters in order, then keywords are bound, then every
parameter must be bound.  Any violation raises TypeError, modelled as
`Except.error`. -/
def bindCall {V : Type} (params : List String) (pos : List V)
    (kws : List (String × V)) : Except String (List (String × V)) :=
  if params.length < pos.length then
    Except.error "too many positional arguments"
  else
    match bindKeywords params (params.zip pos) kws with
    | Except.error e => Except.error e
    | Except.ok bound =>
      if params.all (fun p => keyMem bound p) then Except.ok bound
      else Except.error "missing a required positional argument"

/-- The parameter list of `MCTSPlayer.__init__` from
src/alphago/player.py line 28, `self` excluded:
`(player_no, game, estimator, mcts_iters, c_puct)`.  Note there is no
`tau` parameter. -/
def mctsPlayerInitParams : List String :=
  ["player_no", "game", "estimator", "mcts_iters", "c_puct"]

/-- Constructing an `MCTSPlayer`: bind the call's arguments against
`MCTSPlayer.__init__`'s parameters. -/
def callMCTSPlayerInit {V : Type} (pos : List V) (kws : List (String × V)) :
    Except String (List (String × V)) :=
  bindCall mctsPlayerInitParams pos kws

/-- Model of `evaluate_estimators_in_both_positions(game, estimator1,
estimator2, mcts_iters, c_puct, num_evaluate_games, tau)`
(src/alphago/alphago.py lines 186-205).  It constructs
`MCTSPlayer(game, estimator1, mcts_iters, c_puct, tau=tau)` and
`MCTSPlayer(game, estimator2, mcts_iters, c_puct, tau=tau)`, runs
`evaluate` on them, swaps colours and repeats, accumulating wins and
draws.  The `evaluate` helper lives in alphago/evaluator.py, which is
absent from src; it is abstracted as the argument `results`, where
`results p1 p2 k` is `player1_results[k]` from one `evaluate` call
(Modelled from the spec: the Evaluation Harness classifies each game
from the terminal utility sign for player 1, and `num_evaluate_games`
only parameterises `results`).  Exceptions raised while constructing
the players propagate, as in Python. -/
def evaluate_estimators_in_both_positions {V : Type}
    (results : List (String × V) → List (String × V) → Int → Nat)
    (game estimator1 estimator2 mcts_iters c_puct tau : V) :
    Except String (Nat × Nat × Nat) := do
  let p1 ← callMCTSPlayerInit [game, estimator1, mcts_iters, c_puct] [("tau", tau)]
  let p2 ← callMCTSPlayerInit [game, estimator2, mcts_iters, c_puct] [("tau", tau)]
  let wins1 := results p1 p2 1
  let wins2 := results p1 p2 (-1)
  let draws := results p1 p2 0
  let q1 ← callMCTSPlayerInit [game, estimator2, mcts_iters, c_puct] [("tau", tau)]
  let q2 ← callMCTSPlayerInit [game, estimator1, mcts_iters, c_puct] [("tau", tau)]
  Except.ok (wins1 + results q1 q2 (-1), wins2 + results q1 q2 1,
             draws + results q1 q2 0)

/-- Model of `evaluate_model(game, player1, player2, mcts_iters, c_puct,
num_games)` (src/alphago/alphago.py lines 131-155): it calls
`evaluate_estimators_in_both_positions(game, player1.create_estimate_fn(),
player2.create_estimate_fn(), mcts_iters, c_puct, num_games, tau=0.1)` —
the estimate functions and the float 0.1 are opaque `V` values here —
then computes `training_win_rate = wins2 / (wins1 + wins2 + draws)` and
returns it.  Exceptions raised by the evaluation propagate, exactly as
in Python.  The subsequent evaluation against a random player (lines
149-153) is reached only if the first evaluation returns; it is not
modelled further, because its own player constructions
(`RandomPlayer(game)`, `MCTSPlayer(..., tau=tau)`) would raise the same
class of TypeError and its result is discarded anyway. -/
def evaluate_model {V : Type}
    (results : List (String × V) → List (String × V) → Int → Nat)
    (game estimator1 estimator2 mcts_iters c_puct tau : V) :
    Except String ℚ := do
  let wwd ← evaluate_estimators_in_both_positions results game estimator1
    estimator2 mcts_iters c_puct tau
  Except.ok ((wwd.2.1 : ℚ) / ((wwd.1 : ℚ) + wwd.2.1 + wwd.2.2))

/-- One iteration of the `for alphago_step in range(...)` loop of
`train_alphago` (src/alphago/alphago.py lines 86-118).  Self-play data
generation plus optimisation (lines 88-98, whose collaborators are
absent from src) are abstracted into `optimiseStep`, giving the
candidate's parameters after training on data generated by the current
reference.  On an evaluation round (`alphago_step % evaluate_every ==
0`) the code first calls `evaluate_model` on the reference and the
freshly trained candidate; an exception raised there propagates and
aborts the loop, so `checkpoint_model` (line 105) and the promotion
block (lines 109-118) only run if the evaluation returns — the model
keeps them behind the evaluation's `Except`, exactly as the source
keeps them after the call.  On promotion the reference is a fresh
estimator restored from the checkpoint file just written.  `estimateFn
p` stands for `player.create_estimate_fn()` of an estimator with
parameters `p`; `game`, `mcts_iters`, `c_puct` and `tau` are the opaque
values handed to the harness. -/
def train_round {Params V : Type} (cfg : TrainConfig)
    (optimiseStep : Params → Params → Params)
    (results : List (String × V) → List (String × V) → Int → Nat)
    (game : V) (estimateFn : Params → V) (mcts_iters c_puct tau : V)
    (alphago_step : Nat) (s : TrainState Params) :
    Except String (TrainState Params) :=
  let training := optimiseStep s.self_play_player s.training_player
  if alphago_step % cfg.evaluate_every = 0 then
    match evaluate_model results game (estimateFn s.self_play_player)
        (estimateFn training) mcts_iters c_puct tau with
    | Except.error e => Except.error e
    | Except.ok training_win_rate =>
      let checkpoints := s.checkpoints ++ [(alphago_step, training)]
      if cfg.win_rate < training_win_rate then
        let restored := (restoreCkpt checkpoints alphago_step).getD training
        Except.ok ⟨restored, training, checkpoints⟩
      else
        Except.ok { s with training_player := training, checkpoints := checkpoints }
  else
    Except.ok { s with training_player := training }

/-- Model of `train_alphago` (src/alphago/alphago.py lines 20-120):
both estimators start from `create_estimator()` (parameters `p0`), the
loop runs over `range(initial_step, initial_step + alphago_steps)`, and
an exception raised in any round aborts the remaining rounds. -/
def train_alphago {Params V : Type} (cfg : TrainConfig)
    (optimiseStep : Params → Params → Params)
    (results : List (String × V) → List (String × V) → Int → Nat)
    (game : V) (estimateFn : Params → V) (mcts_iters c_puct tau : V)
    (p0 : Params) (initial_step alphago_steps : Nat) :
    Except String (TrainState Params) :=
  (List.range' initial_step alphago_steps).foldl
    (fun acc step =>
      match acc with
      | Except.error e => Except.error e
      | Except.ok s => train_round cfg optimiseStep results game estimateFn
          mcts_iters c_puct tau step s)
    (Except.ok ⟨p0, p0, []⟩)

/-- Modelled from the spec: an edge of the Game Tree Model (spec §3) —
the owned child (an index into the node arena, following the spec §9
arena design note), visit count N, total value W and prior P.  The
mcts_tree module (MCTSNode, mcts) is absent from src. -/
structure Edge where
  child : Nat
  n : Nat
  w : ℚ
  p : ℚ
deriving DecidableEq

/-- Modelled from the spec: one search-tree vertex (spec §3 Node):
state, player to move, terminal flag, whether the node has been
expanded, and its action-to-edge map in a fixed action order.  States,
actions and players are numbered. -/
structure SNode where
  state : Nat
  player : Nat
  is_terminal : Bool
  expanded : Bool
  edges : List (Nat × Edge)
deriving DecidableEq

/-- Modelled from the spec: a SearchTree — an arena of nodes plus the
index of the current root. -/
structure STree where
  nodes : List SNode
  root : Nat
deriving DecidableEq

/-- Placeholder node used for out-of-range arena reads (never reached
on the inputs the theorems use). -/
def dummyNode : SNode :=
  { state := 0, player := 0, is_terminal := true, expanded := false, edges := [] }

/-- Read a node from the arena. -/
def getNode (nodes : List SNode) (i : Nat) : SNode :=
  (nodes.get? i).getD dummyNode

/-- Lookup in a prior map returned by the estimator. -/
def lookupProb (l : List (Nat × ℚ)) (a : Nat) : ℚ :=
  ((l.find? (fun kv => kv.1 == a)).map Prod.snd).getD 0

/-- Modelled from the spec: the context of one search — the Game and
Estimator collaborators, the exploration constant, and the square root
used by the PUCT formula.  The spec's formula uses the real-valued
sqrt(N(s)); the embedding works in ℚ, so the square root is kept
abstract as a context field (the theorems below hold for every
choice). -/
structure MCTSContext where
  game : Game Nat Nat Nat
  estimator : Nat → List (Nat × ℚ) × ℚ
  c_puct : ℚ
  sqrtQ : Nat → ℚ

/-- Mean action value Q = W/N, 0 when N = 0 (spec §3 convention). -/
def edgeQ (e : Edge) : ℚ := if e.n = 0 then 0 else e.w / e.n

/-- Modelled from the spec: the PUCT selection score
`Q(s,a) + c_puct * P(s,a) * sqrt(N(s)) / (1 + N(s,a))` (spec §4.2). -/
def puctScore (ctx : MCTSContext) (nTot : Nat) (e : Edge) : ℚ :=
  edgeQ e + ctx.c_puct * e.p * ctx.sqrtQ nTot / (1 + e.n)

/-- Simulations routed through a node: the sum of its edges' visit
counts (spec §3 invariant). -/
def nodeVisits (nd : SNode) : Nat := (nd.edges.map (fun ae => ae.2.n)).sum

/-- Modelled from the spec: choose the edge maximizing the PUCT score,
ties broken deterministically by the fixed action ordering (the first
maximum in edge order, spec §4.2 step 1). -/
def bestEdge (ctx : MCTSContext) (nTot : Nat) :
    List (Nat × Edge) → Option (Nat × Edge)
  | [] => none
  | ae :: rest =>
    match bestEdge ctx nTot rest with
    | none => some ae
    | some be =>
      if puctScore ctx nTot ae.2 < puctScore ctx nTot be.2 then some be
      else some ae

/-- Modelled from the spec: the selection phase (spec §4.2 step 1) —
from the current node, repeatedly follow the best edge until reaching
an unexpanded or terminal node; returns the list of (node index,
action) pairs traversed and the leaf's index.  Children are appended
after their parent in the arena, so a fuel of `nodes.length`
suffices. -/
def selectPath (ctx : MCTSContext) (nodes : List SNode) :
    Nat → Nat → List (Nat × Nat) × Nat
  | 0, cur => ([], cur)
  | fuel + 1, cur =>
    let nd := getNode nodes cur
    if nd.is_terminal || !nd.expanded then ([], cur)
    else
      match bestEdge ctx (nodeVisits nd) nd.edges with
      | none => ([], cur)
      | some ae =>
        let pl := selectPath ctx nodes fuel ae.2.child
        ((cur, ae.1) :: pl.1, pl.2)

/-- Modelled from the spec: expansion/evaluation (spec §4.2 step 2) —
a non-terminal leaf is expanded with one zero-statistics edge per legal
action, priors from the estimator, the child nodes being freshly
allocated at the end of the arena; the estimator's value is returned.
A terminal leaf returns the Game collaborator's exact utility for the
mover at that node. -/
def expandNode (ctx : MCTSContext) (nodes : List SNode) (leaf : Nat) :
    List SNode × ℚ :=
  let nd := getNode nodes leaf
  if nd.is_terminal then
    (nodes, ctx.game.utility nd.state (ctx.game.which_player nd.state))
  else
    let pv := ctx.estimator nd.state
    let succs := ctx.game.compute_next_states nd.state
    let base := nodes.length
    let children := succs.map (fun as_ =>
      { state := as_.2, player := ctx.game.which_player as_.2,
        is_terminal := ctx.game.is_terminal as_.2, expanded := false,
        edges := ([] : List (Nat × Edge)) })
    let newEdges := (succs.zip (List.range succs.length)).map (fun sj =>
      (sj.1.1, { child := base + sj.2, n := 0, w := 0,
                 p := lookupProb pv.1 sj.1.1 }))
    (nodes.set leaf { nd with expanded := true, edges := newEdges } ++ children,
     pv.2)

/-- Increment an edge's visit count and accumulate a value into its
total value W. -/
def bumpEdge (nodes : List SNode) (idx a : Nat) (v : ℚ) : List SNode :=
  let nd := getNode nodes idx
  nodes.set idx { nd with edges := nd.edges.map (fun ae =>
    if ae.1 = a then
      (ae.1, { ae.2 with n := ae.2.n + 1, w := ae.2.w + v })
    else ae) }

/-- Walk a reversed selection path (leaf end first), adding the value
to each traversed edge and negating it once per ply. -/
def backupRev : List SNode → List (Nat × Nat) → ℚ → List SNode
  | nodes, [], _ => nodes
  | nodes, pa :: rest, v => backupRev (bumpEdge nodes pa.1 pa.2 v) rest (-v)

/-- Modelled from the spec: the backup phase (spec §4.2 step 3) — the
leaf value (from the leaf mover's perspective) is propagated up the
selection path, negated once per ply; each traversed edge's N is
incremented and its W accumulated.  The edge into the leaf records the
value from its parent's perspective, i.e. the negated leaf value. -/
def backup (nodes : List SNode) (path : List (Nat × Nat)) (v : ℚ) :
    List SNode :=
  backupRev nodes path.reverse (-v)

/-- Modelled from the spec: one MCTS simulation —
selection, expansion/evaluation, backup. -/
def mctsIter (ctx : MCTSContext) (t : STree) : STree :=
  let pl := selectPath ctx t.nodes t.nodes.length t.root
  let nv := expandNode ctx t.nodes pl.2
  { t with nodes := backup nv.1 pl.1 nv.2 }

/-- Run a fixed number of MCTS simulations on a tree. -/
def runMCTS (ctx : MCTSContext) : Nat → STree → STree
  | 0, t => t
  | k + 1, t => runMCTS ctx k (mctsIter ctx t)

/-- Modelled from the spec: the output distribution
`P(a) = N(a)^(1/tau) / sum_b N(b)^(1/tau)` over the root's edges (spec
§4.2).  The temperature is supplied as its reciprocal: `self_play`
always calls with `tau = 1/(move_count+1)`, so `1/tau = move_count+1`
is a natural number and the power is exact in ℚ.  An action with N = 0
yields probability 0. -/
def rootProbs (invTau : Nat) (t : STree) : List (Nat × ℚ) :=
  let nd := getNode t.nodes t.root
  let weights := nd.edges.map (fun ae => (ae.1, ((ae.2.n : ℚ)) ^ invTau))
  let total := (weights.map Prod.snd).sum
  if total = 0 then weights.map (fun aw => (aw.1, (0 : ℚ)))
  else weights.map (fun aw => (aw.1, aw.2 / total))

/-- Modelled from the spec: `mcts(node, game, estimator, mcts_iters,
c_puct, tau)` — run the simulations on the given tree and derive the
root action distribution; returns the distribution together with the
post-search tree (in Python the tree is mutated in place, so the
caller's node keeps the accumulated statistics and children). -/
def mcts (ctx : MCTSContext) (iters invTau : Nat) (t : STree) :
    List (Nat × ℚ) × STree :=
  let t2 := runMCTS ctx iters t
  (rootProbs invTau t2, t2)

/-- A freshly constructed MCTSNode for a state, as built by
`MCTSNode(state, which_player(state))`: no children, no statistics. -/
def freshNodeFor (g : Game Nat Nat Nat) (s : Nat) : SNode :=
  { state := s, player := g.which_player s, is_terminal := g.is_terminal s,
    expanded := false, edges := [] }

/-- The tree `self_play` creates once, before its loop
(src/alphago/alphago.py line 260): a single fresh node for the game's
initial state. -/
def initialTree (g : Game Nat Nat Nat) : STree :=
  { nodes := [freshNodeFor g g.initial_state], root := 0 }

/-- `node.children[action]`: the arena index of the root's child along
an action.  In Python a missing key raises KeyError; the default
(staying at the root) is never reached for samplers that return an
action of the root's distribution. -/
def childOf (t : STree) (a : Nat) : Nat :=
  (((getNode t.nodes t.root).edges.find? (fun ae => ae.1 == a)).map
    (fun ae => ae.2.child)).getD t.root

/-- One iteration of `self_play`'s while loop (src/alphago/alphago.py
lines 268-285): run `mcts` with `tau = 1/(move_count+1)` on the current
node, sample an action from the returned distribution
(`sample_distribution` lives in alphago/utilities.py, absent from src —
Modelled from the spec: sampling from the distribution with a seedable
random source, abstracted here as the `sample` argument), then set
`node = node.children[action]` on the tree the search just worked on. -/
def self_play_next (ctx : MCTSContext) (mcts_iters : Nat)
    (sample : List (Nat × ℚ) → Nat) (move_count : Nat) (t : STree) : STree :=
  let pr := mcts ctx mcts_iters (move_count + 1) t
  let action := sample pr.1
  { pr.2 with root := childOf pr.2 action }

/-- The sequence of tree values handed to successive `mcts` calls
during one `self_play` game: starting from a tree and a move count, as
long as the current node is non-terminal, record the tree passed to
this ply's search and continue with `self_play_next`.  `fuel` bounds
the number of plies. -/
def self_play_searchInputs (ctx : MCTSContext) (mcts_iters : Nat)
    (sample : List (Nat × ℚ) → Nat) :
    Nat → Nat → STree → List STree
  | 0, _, _ => []
  | fuel + 1, move_count, t =>
    if (getNode t.nodes t.root).is_terminal then []
    else
      t :: self_play_searchInputs ctx mcts_iters sample fuel (move_count + 1)
        (self_play_next ctx mcts_iters sample move_count t)

/-- A search input is a fresh tree at its root: the root node is
unexpanded, with no children and no edge statistics.  A freshly created
SearchTree (a single just-constructed node) satisfies this. -/
def isFreshSearchRoot (t : STree) : Bool :=
  !(getNode t.nodes t.root).expanded &&
  (getNode t.nodes t.root).edges.isEmpty

/-- The C1 claim as a predicate: every ply's search during one
self-play game receives a fresh tree (no carried-over node, edge
statistic or child) rooted at the actually-reached state. -/
def everyPlyFreshTree (ctx : MCTSContext) (mcts_iters : Nat)
    (sample : List (Nat × ℚ) → Nat) (fuel : Nat) : Prop :=
  ∀ t ∈ self_play_searchInputs ctx mcts_iters sample fuel 0
      (initialTree ctx.game), isFreshSearchRoot t = true

/-- A three-state chain game: state 0 (player 1) has the single action
0 leading to state 1 (player 2), whose single action 0 leads to the
terminal state 2, a win for player 1. -/
def chainGame : Game Nat Nat Nat :=
  { initial_state := 0,
    which_player := fun s => if s = 0 then 1 else if s = 1 then 2 else 1,
    is_terminal := fun s => s == 2,
    compute_next_states := fun s =>
      if s = 0 then [(0, 1)] else if s = 1 then [(0, 2)] else [],
    utility := fun s p =>
      if s = 2 then (if p = 1 then 1 else -1) else 0 }

/-- An estimator for the chain game: prior 1 on the unique action,
value 1/2 everywhere. -/
def chainEstimator : Nat → List (Nat × ℚ) × ℚ := fun s =>
  (if s = 0 then [(0, 1)] else if s = 1 then [(0, 1)] else [], 1 / 2)

/-- Search context for the chain game, with c_puct = 1.  Every node of
the chain game has a single action, so selection never compares PUCT
scores and any stand-in for the square root gives the same search; the
identity embedding of ℕ into ℚ is used. -/
def chainCtx : MCTSContext :=
  { game := chainGame, estimator := chainEstimator, c_puct := 1,
    sqrtQ := fun n => (n : ℚ) }

/-- A sampler that picks the first action of the distribution (on the
chain game every distribution has exactly one action, so any valid
sampler agrees with it). -/
def headSample (pr : List (Nat × ℚ)) : Nat :=
  ((pr.head?).map Prod.fst).getD 0

/-- The search inputs of a self-play game on the chain game with 3 MCTS
iterations per ply. -/
def chainInputs : List STree :=
  self_play_searchInputs chainCtx 3 headSample 10 0 (initialTree chainGame)

/-- The C8 claim as a predicate on one conversion: the nonzero support
of the dense vector equals exactly the set of dense indices of the
actions appearing in the probability map, and each such entry equals
the map's probability for that action. -/
def denseSupportClaim {A : Type} [DecidableEq A] (action_indices : List (A × Nat))
    (probs : List (A × ℚ)) : Prop :=
  (∀ j, j < (probsToVector action_indices probs).length →
    ((probsToVector action_indices probs).getD j 0 ≠ 0 ↔
      ∃ ap, ap ∈ probs ∧ lookupIdx action_indices ap.1 = j)) ∧
  ∀ ap, ap ∈ probs →
    (probsToVector action_indices probs).getD (lookupIdx action_indices ap.1) 0
      = ap.2

/-- A one-move game over numeric states used to exercise the example
builder on concrete trajectories: every state is terminal, player 1
moves everywhere, and the terminal utility is +1 for player 1 and -1
for player 2. -/
def trivGame : Game PyState Nat Nat :=
  { initial_state := [], which_player := fun _ => 1,
    is_terminal := fun _ => true, compute_next_states := fun _ => [],
    utility := fun _ p => if p = 1 then 1 else -1 }

/-! ## Theorems -/

/-- Unfolding `process_self_play_data` on a nonempty state list: the
popped terminal state is the last element, and each zipped triple
produces one training tuple. -/
theorem process_self_play_data_eq {A P : Type} [DecidableEq A]
    (states_ : List PyState) (actions_ : List A)
    (action_probs_ : List (List (A × ℚ))) (game : Game PyState A P)
    (action_indices : List (A × Nat)) (h : states_ ≠ []) :
    process_self_play_data states_ actions_ action_probs_ game action_indices
      = some ((states_.dropLast.zip (actions_.zip action_probs_)).map (fun sap =>
          { state := sap.1.map nanToNum, action := sap.2.1,
            probs_vector := probsToVector action_indices sap.2.2,
            z := game.utility (states_.getLast h) (game.which_player sap.1) }),
          states_.dropLast, actions_, action_probs_) := by
  unfold process_self_play_data
  rw [List.getLast?_eq_getLast states_ h]

/-- C6: for every completed trajectory of k states (the last terminal),
`process_self_play_data` returns exactly k-1 training examples, one per
non-terminal state in order, with no example for the terminal state. -/
theorem C6_examples_per_nonterminal_state {A P : Type} [DecidableEq A]
    (states_ : List PyState) (actions_ : List A)
    (action_probs_ : List (List (A × ℚ))) (game : Game PyState A P)
    (action_indices : List (A × Nat)) (k : Nat)
    (hs : states_.length = k) (ha : actions_.length = k - 1)
    (hp : action_probs_.length = k - 1) (hne : states_ ≠ []) :
    ∃ td,
      process_self_play_data states_ actions_ action_probs_ game action_indices
        = some (td, states_.dropLast, actions_, action_probs_) ∧
      td.length = k - 1 ∧
      ∀ i, i < k - 1 →
        (td[i]?).map (fun e => e.state)
          = (states_[i]?).map (fun s => s.map nanToNum) := by
  refine ⟨_, process_self_play_data_eq states_ actions_ action_probs_ game
    action_indices hne, ?_, ?_⟩
  · simp [List.length_zip, List.length_dropLast, hs, ha, hp]
  · intro i hi
    have hkpos : 0 < k := by
      have := List.length_pos.mpr hne
      omega
    have h1 : i < (states_.dropLast.zip (actions_.zip action_probs_)).length := by
      simp only [List.length_zip, List.length_dropLast, hs, ha, hp]
      omega
    have h2 : i < states_.length := by omega
    rw [List.getElem?_map, List.getElem?_eq_getElem h1,
      List.getElem?_eq_getElem h2]
    simp [List.getElem_zip, List.getElem_dropLast]

/-- C7: the outcome scalar attached to each training example equals the
Game collaborator's utility of the trajectory's final state, indexed by
the player to move in the example's state. -/
theorem C7_outcome_indexed_by_mover {A P : Type} [DecidableEq A]
    (states_ : List PyState) (actions_ : List A)
    (action_probs_ : List (List (A × ℚ))) (game : Game PyState A P)
    (action_indices : List (A × Nat)) (hne : states_ ≠ []) :
    ∃ td rest acts probs,
      process_self_play_data states_ actions_ action_probs_ game action_indices
        = some (td, rest, acts, probs) ∧
      ∀ i, i < td.length →
        (td[i]?).map (fun e => e.z)
          = (states_[i]?).map (fun s =>
              game.utility (states_.getLast hne) (game.which_player s)) := by
  refine ⟨_, _, _, _, process_self_play_data_eq states_ actions_ action_probs_
    game action_indices hne, ?_⟩
  intro i hi
  rw [List.length_map] at hi
  have h2 : i < states_.length := by
    have hle : (states_.dropLast.zip (actions_.zip action_probs_)).length
        ≤ states_.dropLast.length := by
      rw [List.length_zip]
      exact min_le_left _ _
    have := List.length_dropLast states_
    omega
  rw [List.getElem?_map, List.getElem?_eq_getElem hi,
    List.getElem?_eq_getElem h2]
  simp [List.getElem_zip, List.getElem_dropLast]

/-- C9 counterexample: a state containing +inf is emitted by the
example builder with the value replaced by the largest finite float64
(1.7976931348623157e308), not by 0, since `np.nan_to_num` maps
infinities to the extreme finite values. -/
theorem C9_inf_counterexample :
    (process_self_play_data [[PyFloat.posInf], []] [5] [[(5, 1)]] trivGame
        [(5, 0)]).map (fun out => out.1.map (fun e => e.state))
      = some [[PyFloat.finite float64Max]] ∧
    PyFloat.finite float64Max ≠ PyFloat.finite 0 := by
  constructor
  · rfl
  · simp only [ne_eq, PyFloat.finite.injEq, float64Max]
    norm_num

/-- C9 amended: the sanitization step replaces NaN with 0, +inf with
the largest finite float64 and -inf with its negation; finite values
are unchanged, every result is finite, and no error is raised (the
function is total). -/
theorem C9_nan_to_num_behaviour :
    (∀ v : PyFloat, (nanToNum v).isFinite = true) ∧
    (∀ q : ℚ, nanToNum (PyFloat.finite q) = PyFloat.finite q) ∧
    nanToNum PyFloat.nan = PyFloat.finite 0 ∧
    nanToNum PyFloat.posInf = PyFloat.finite float64Max ∧
    nanToNum PyFloat.negInf = PyFloat.finite (-float64Max) :=
  ⟨fun v => by cases v <;> rfl, fun q => rfl, rfl, rfl, rfl⟩

/-- C10: `process_self_play_data` pops the last element of its states
list in place — after the call the caller's list is its dropLast (one
element shorter, the terminal state removed from the end) — while the
actions and action-probabilities lists are unchanged. -/
theorem C10_states_pop_frame {A P : Type} [DecidableEq A]
    (states_ : List PyState) (actions_ : List A)
    (action_probs_ : List (List (A × ℚ))) (game : Game PyState A P)
    (action_indices : List (A × Nat)) (hne : states_ ≠ []) :
    ∃ td,
      process_self_play_data states_ actions_ action_probs_ game action_indices
        = some (td, states_.dropLast, actions_, action_probs_) ∧
      states_.dropLast.length + 1 = states_.length ∧
      states_.dropLast ++ [states_.getLast hne] = states_ :=
  ⟨_, process_self_play_data_eq states_ actions_ action_probs_ game
      action_indices hne,
    by
      rw [List.length_dropLast]
      have := List.length_pos.mpr hne
      omega,
    List.dropLast_append_getLast hne⟩

/-- C2: evaluating `generate_self_play_data` at `num_iters = 2` (no
save file): because `index` is never incremented inside the loop, both
games are stored under the single key 0, the second overwriting the
first; the resulting mapping has one key, not two distinct increasing
keys. -/
theorem C2_single_key_bug {T : Type} (play : Nat → T) :
    generate_self_play_data 2 play = [(0, play 1)] ∧
    (generate_self_play_data 2 play).length = 1 :=
  ⟨rfl, rfl⟩

/-- On an evaluation round, `train_round` propagates the TypeError
raised while `evaluate_model` constructs its first MCTS player, before
any checkpoint is appended or any promotion decision is taken. -/
theorem train_round_eval_error {Params V : Type} (cfg : TrainConfig)
    (optimiseStep : Params → Params → Params)
    (results : List (String × V) → List (String × V) → Int → Nat)
    (game : V) (estimateFn : Params → V) (mcts_iters c_puct tau : V)
    (step : Nat) (s : TrainState Params)
    (h : step % cfg.evaluate_every = 0) :
    train_round cfg optimiseStep results game estimateFn mcts_iters c_puct
        tau step s
      = Except.error "unexpected keyword argument tau" := by
  unfold train_round
  rw [if_pos h]
  rfl

/-- Unfolding one round of `train_alphago`'s fold from a non-error
state. -/
theorem train_fold_cons {Params V : Type} (cfg : TrainConfig)
    (optimiseStep : Params → Params → Params)
    (results : List (String × V) → List (String × V) → Int → Nat)
    (game : V) (estimateFn : Params → V) (mcts_iters c_puct tau : V)
    (step : Nat) (steps : List Nat) (s : TrainState Params) :
    (step :: steps).foldl
      (fun acc st =>
        match acc with
        | Except.error e => Except.error e
        | Except.ok s => train_round cfg optimiseStep results game estimateFn
            mcts_iters c_puct tau st s)
      (Except.ok s)
      = steps.foldl
          (fun acc st =>
            match acc with
            | Except.error e => Except.error e
            | Except.ok s => train_round cfg optimiseStep results game
                estimateFn mcts_iters c_puct tau st s)
          (train_round cfg optimiseStep results game estimateFn mcts_iters
            c_puct tau step s) := rfl

/-- Folding further rounds onto an already-raised exception leaves the
exception as the loop's outcome. -/
theorem train_alphago_fold_error {Params V : Type} (cfg : TrainConfig)
    (optimiseStep : Params → Params → Params)
    (results : List (String × V) → List (String × V) → Int → Nat)
    (game : V) (estimateFn : Params → V) (mcts_iters c_puct tau : V)
    (steps : List Nat) (e : String) :
    steps.foldl
      (fun acc step =>
        match acc with
        | Except.error e => Except.error e
        | Except.ok s => train_round cfg optimiseStep results game estimateFn
            mcts_iters c_puct tau step s)
      (Except.error e) = Except.error e := by
  induction steps with
  | nil => rfl
  | cons a rest ih => rw [List.foldl_cons]; exact ih

/-- C3: a run of `train_alphago` started without `restore_step`
(initial round 0) writes no checkpoint in any round: round 0 is an
evaluation round (0 % evaluate_every == 0), `evaluate_model` raises
TypeError there while constructing `MCTSPlayer(..., tau=0.1)`, the
exception aborts the whole loop, and `checkpoint_model` — which only
runs after the evaluation returns — is never reached. -/
theorem C3_no_checkpoint_type_error {Params V : Type} (cfg : TrainConfig)
    (optimiseStep : Params → Params → Params)
    (results : List (String × V) → List (String × V) → Int → Nat)
    (game : V) (estimateFn : Params → V) (mcts_iters c_puct tau : V)
    (p0 : Params) (alphago_steps : Nat) (h : 0 < alphago_steps) :
    train_alphago cfg optimiseStep results game estimateFn mcts_iters c_puct
        tau p0 0 alphago_steps
      = Except.error "unexpected keyword argument tau" := by
  obtain ⟨m, rfl⟩ : ∃ m, alphago_steps = m + 1 := ⟨alphago_steps - 1, by omega⟩
  unfold train_alphago
  rw [List.range'_succ, train_fold_cons,
    train_round_eval_error cfg optimiseStep results game estimateFn mcts_iters
      c_puct tau 0 _ (Nat.zero_mod cfg.evaluate_every)]
  exact train_alphago_fold_error cfg optimiseStep results game estimateFn
    mcts_iters c_puct tau _ _

/-- Witness for C3 at a concrete run of one round. -/
theorem C3_no_checkpoint_type_error_witness :
    0 < 1 ∧
    train_alphago { evaluate_every := 1, win_rate := 11 / 20 }
        (fun _ t => t + 1) (fun _ _ _ => 0) (0 : Nat) (fun p => p) 1 2 3
        (0 : Nat) 0 1
      = Except.error "unexpected keyword argument tau" :=
  ⟨by decide,
   C3_no_checkpoint_type_error { evaluate_every := 1, win_rate := 11 / 20 }
     (fun _ t => t + 1) (fun _ _ _ => 0) (0 : Nat) (fun p => p) 1 2 3
     (0 : Nat) 1 (by decide)⟩

/-- C4: on every evaluation round of `train_alphago`, the loop body
raises the TypeError from the evaluation harness instead of measuring a
win rate — the comparison against the `win_rate` threshold, the
checkpoint restore and the promotion (src/alphago/alphago.py lines
105-118) are unreachable, for every configuration, estimator and
harness outcome. -/
theorem C4_promotion_unreachable {Params V : Type} (cfg : TrainConfig)
    (optimiseStep : Params → Params → Params)
    (results : List (String × V) → List (String × V) → Int → Nat)
    (game : V) (estimateFn : Params → V) (mcts_iters c_puct tau : V)
    (step : Nat) (s : TrainState Params)
    (h : step % cfg.evaluate_every = 0) :
    train_round cfg optimiseStep results game estimateFn mcts_iters c_puct
        tau step s
      = Except.error "unexpected keyword argument tau" ∧
    ∀ s2 : TrainState Params,
      train_round cfg optimiseStep results game estimateFn mcts_iters c_puct
          tau step s ≠ Except.ok s2 := by
  have herr : train_round cfg optimiseStep results game estimateFn mcts_iters
      c_puct tau step s = Except.error "unexpected keyword argument tau" := by
    unfold train_round
    rw [if_pos h]
    rfl
  constructor
  · exact herr
  · intro s2 hok
    rw [herr] at hok
    exact Except.noConfusion hok

/-- Witness for C4 at a concrete evaluation round. -/
theorem C4_promotion_unreachable_witness :
    (0 % ({ evaluate_every := 1, win_rate := 11 / 20 }
        : TrainConfig).evaluate_every = 0) ∧
    (train_round { evaluate_every := 1, win_rate := 11 / 20 }
        (fun _ t => t + 1) (fun _ _ _ => 0) (0 : Nat) (fun p => p) 1 2 3 0
        ({ self_play_player := 5, training_player := 7, checkpoints := [] }
          : TrainState Nat)
      = Except.error "unexpected keyword argument tau" ∧
    ∀ s2 : TrainState Nat,
      train_round { evaluate_every := 1, win_rate := 11 / 20 }
          (fun _ t => t + 1) (fun _ _ _ => 0) (0 : Nat) (fun p => p) 1 2 3 0
          ({ self_play_player := 5, training_player := 7, checkpoints := [] }
            : TrainState Nat)
        ≠ Except.ok s2) :=
  ⟨by decide,
   C4_promotion_unreachable { evaluate_every := 1, win_rate := 11 / 20 }
     (fun _ t => t + 1) (fun _ _ _ => 0) (0 : Nat) (fun p => p) 1 2 3 0
     { self_play_player := 5, training_player := 7, checkpoints := [] }
     (by decide)⟩

/-- C5: every call of `evaluate_estimators_in_both_positions` raises
TypeError while constructing its first MCTS player, because the call
`MCTSPlayer(game, estimator1, mcts_iters, c_puct, tau=tau)` passes the
keyword `tau`, which `MCTSPlayer.__init__(player_no, game, estimator,
mcts_iters, c_puct)` does not accept (the positional arguments are
also shifted against `player_no`); no games are ever played with
`tau = 0.1`. -/
theorem C5_mcts_player_tau_type_error {V : Type}
    (results : List (String × V) → List (String × V) → Int → Nat)
    (game estimator1 estimator2 mcts_iters c_puct tau : V) :
    evaluate_estimators_in_both_positions results game estimator1 estimator2
        mcts_iters c_puct tau
      = Except.error "unexpected keyword argument tau" := rfl

/-- The dense-vector fold preserves the accumulator's length. -/
theorem probsFold_length {A : Type} [DecidableEq A] (ai : List (A × Nat))
    (probs : List (A × ℚ)) (v : List ℚ) :
    (probs.foldl (fun v ap => v.set (lookupIdx ai ap.1) ap.2) v).length
      = v.length := by
  induction probs generalizing v with
  | nil => rfl
  | cons ap rest ih => rw [List.foldl_cons, ih, List.length_set]

/-- Positions no entry of the probability map is assigned to are left
unchanged by the dense-vector fold. -/
theorem probsFold_getElem?_of_notMem {A : Type} [DecidableEq A]
    (ai : List (A × Nat)) (probs : List (A × ℚ)) (v : List ℚ) (j : Nat)
    (h : ∀ ap ∈ probs, lookupIdx ai ap.1 ≠ j) :
    (probs.foldl (fun v ap => v.set (lookupIdx ai ap.1) ap.2) v)[j]?
      = v[j]? := by
  induction probs generalizing v with
  | nil => rfl
  | cons ap rest ih =>
    rw [List.foldl_cons,
      ih _ (fun bp hb => h bp (List.mem_cons_of_mem ap hb))]
    exact List.getElem?_set_ne (h ap (List.mem_cons_self ap rest))

/-- Each entry of a key-distinct, injectively indexed, in-bounds
probability map is stored at its dense index by the fold. -/
theorem probsFold_getElem?_mem {A : Type} [DecidableEq A]
    (ai : List (A × Nat)) (probs : List (A × ℚ)) (v : List ℚ)
    (hnd : probs.Nodup)
    (hinj : ∀ ap ∈ probs, ∀ bp ∈ probs,
      lookupIdx ai ap.1 = lookupIdx ai bp.1 → ap = bp)
    (hb : ∀ ap ∈ probs, lookupIdx ai ap.1 < v.length) :
    ∀ ap ∈ probs,
      (probs.foldl (fun v ap => v.set (lookupIdx ai ap.1) ap.2)
          v)[lookupIdx ai ap.1]?
        = some ap.2 := by
  induction probs generalizing v with
  | nil => intro ap hap; cases hap
  | cons cp rest ih =>
    intro ap hap
    rw [List.foldl_cons]
    rcases List.mem_cons.mp hap with heq | hmem
    · subst heq
      rw [probsFold_getElem?_of_notMem ai rest _ _ ?hne]
      · exact List.getElem?_set_self (hb ap (List.mem_cons_self ap rest))
      case hne =>
        intro bp hb' hidx
        have hbp : bp = ap :=
          hinj bp (List.mem_cons_of_mem ap hb') ap
            (List.mem_cons_self ap rest) hidx
        subst hbp
        exact absurd hb' (List.nodup_cons.mp hnd).1
    · refine ih _ (List.nodup_cons.mp hnd).2
        (fun xp hx yp hy hxy => hinj xp (List.mem_cons_of_mem cp hx) yp
          (List.mem_cons_of_mem cp hy) hxy)
        (fun xp hx => ?_) ap hmem
      rw [List.length_set]
      exact hb xp (List.mem_cons_of_mem cp hx)

/-- C8 counterexample: the probability map assigning probability 0 to
action 0 (as MCTS produces for an action with zero visits) converts to
the all-zero vector, whose nonzero support is empty while the map's
action set is not — the round-trip support equality fails. -/
theorem C8_support_counterexample :
    ¬ denseSupportClaim [((0 : Nat), 0)] [((0 : Nat), (0 : ℚ))] := by
  unfold denseSupportClaim
  decide

/-- C8 amended: for a probability map with distinct entries whose
actions are injectively assigned in-range dense indices, each action's
probability is stored exactly at its index, and the nonzero support of
the dense vector equals the set of indices of actions carrying a
NONZERO probability in the map (actions with probability 0 — e.g.
unvisited actions — are in the map but not in the support). -/
theorem C8_dense_vector_support {A : Type} [DecidableEq A]
    (action_indices : List (A × Nat)) (probs : List (A × ℚ))
    (hnd : probs.Nodup)
    (hinj : ∀ ap ∈ probs, ∀ bp ∈ probs,
      lookupIdx action_indices ap.1 = lookupIdx action_indices bp.1 → ap = bp)
    (hb : ∀ ap ∈ probs, lookupIdx action_indices ap.1 < action_indices.length) :
    (∀ ap ∈ probs,
      (probsToVector action_indices probs).getD
          (lookupIdx action_indices ap.1) 0 = ap.2) ∧
    (∀ j, j < (probsToVector action_indices probs).length →
      ((probsToVector action_indices probs).getD j 0 ≠ 0 ↔
        ∃ ap, ap ∈ probs ∧ lookupIdx action_indices ap.1 = j ∧ ap.2 ≠ 0)) := by
  have hb' : ∀ ap ∈ probs,
      lookupIdx action_indices ap.1
        < (List.replicate action_indices.length (0 : ℚ)).length := by
    intro ap hap
    rw [List.length_replicate]
    exact hb ap hap
  have hval : ∀ ap ∈ probs,
      (probsToVector action_indices probs)[lookupIdx action_indices ap.1]?
        = some ap.2 :=
    probsFold_getElem?_mem action_indices probs _ hnd hinj hb'
  have hvalD : ∀ ap ∈ probs,
      (probsToVector action_indices probs).getD
          (lookupIdx action_indices ap.1) 0 = ap.2 := by
    intro ap hap
    rw [List.getD_eq_getElem?_getD, hval ap hap]
    rfl
  refine ⟨hvalD, ?_⟩
  intro j hj
  constructor
  · intro hne0
    by_cases hex : ∃ ap ∈ probs, lookupIdx action_indices ap.1 = j
    · obtain ⟨ap, hmem, hidx⟩ := hex
      refine ⟨ap, hmem, hidx, ?_⟩
      intro h0
      apply hne0
      rw [← hidx, hvalD ap hmem, h0]
    · push_neg at hex
      exfalso
      apply hne0
      have hjlen : j < action_indices.length := by
        rw [probsToVector, probsFold_length, List.length_replicate] at hj
        exact hj
      have hnone : (probsToVector action_indices probs)[j]? = some 0 := by
        rw [probsToVector,
          probsFold_getElem?_of_notMem action_indices probs _ j hex,
          List.getElem?_replicate, if_pos hjlen]
      rw [List.getD_eq_getElem?_getD, hnone]
      rfl
  · rintro ⟨ap, hmem, hidx, hne⟩
    rw [← hidx, hvalD ap hmem]
    exact hne

attribute [local semireducible] Rat.add Rat.mul Rat.inv Rat.sub in
/-- Witness for the amended C8 on a two-action map with one zero
probability. -/
theorem C8_dense_vector_support_witness :
    (([((0 : Nat), (1 / 2 : ℚ)), (1, 0)]).Nodup ∧
     (∀ ap ∈ [((0 : Nat), (1 / 2 : ℚ)), (1, 0)],
       ∀ bp ∈ [((0 : Nat), (1 / 2 : ℚ)), (1, 0)],
         lookupIdx [(0, 0), (1, 1)] ap.1 = lookupIdx [(0, 0), (1, 1)] bp.1
           → ap = bp) ∧
     (∀ ap ∈ [((0 : Nat), (1 / 2 : ℚ)), (1, 0)],
       lookupIdx [(0, 0), (1, 1)] ap.1
         < ([((0 : Nat), 0), (1, 1)]).length)) ∧
    ((∀ ap ∈ [((0 : Nat), (1 / 2 : ℚ)), (1, 0)],
      (probsToVector [(0, 0), (1, 1)] [((0 : Nat), (1 / 2 : ℚ)), (1, 0)]).getD
          (lookupIdx [(0, 0), (1, 1)] ap.1) 0 = ap.2) ∧
    (∀ j, j < (probsToVector [(0, 0), (1, 1)]
        [((0 : Nat), (1 / 2 : ℚ)), (1, 0)]).length →
      ((probsToVector [(0, 0), (1, 1)]
          [((0 : Nat), (1 / 2 : ℚ)), (1, 0)]).getD j 0 ≠ 0 ↔
        ∃ ap, ap ∈ [((0 : Nat), (1 / 2 : ℚ)), (1, 0)] ∧
          lookupIdx [(0, 0), (1, 1)] ap.1 = j ∧ ap.2 ≠ 0))) :=
  ⟨⟨by decide, by decide, by decide⟩,
   C8_dense_vector_support [(0, 0), (1, 1)] [((0 : Nat), (1 / 2 : ℚ)), (1, 0)]
     (by decide) (by decide) (by decide)⟩

/-- The first tree handed to a search during `self_play` is the tree
the loop was entered with. -/
theorem searchInputs_head (ctx : MCTSContext) (mcts_iters : Nat)
    (sample : List (Nat × ℚ) → Nat) (fuel move_count : Nat) (t d : STree)
    (h : self_play_searchInputs ctx mcts_iters sample fuel move_count t ≠ []) :
    (self_play_searchInputs ctx mcts_iters sample fuel move_count t).getD 0 d
      = t := by
  cases fuel with
  | zero => simp [self_play_searchInputs] at h
  | succ fuel =>
    simp only [self_play_searchInputs] at h ⊢
    by_cases ht : (getNode t.nodes t.root).is_terminal = true
    · rw [if_pos ht] at h
      exact absurd rfl h
    · rw [if_neg ht]
      rfl

/-- C1 amended: only the first ply's search runs on a freshly created
tree (rooted at the initial state); the tree handed to every later
ply's search is the previous ply's post-search tree with the root moved
to the child reached by the sampled action — nodes, children and edge
statistics created during earlier plies' searches are carried over. -/
theorem C1_subtree_reuse (ctx : MCTSContext) (mcts_iters : Nat)
    (sample : List (Nat × ℚ) → Nat) :
    ∀ (fuel move_count i : Nat) (t d : STree),
      i + 1 < (self_play_searchInputs ctx mcts_iters sample fuel move_count
        t).length →
      (self_play_searchInputs ctx mcts_iters sample fuel move_count t).getD
          (i + 1) d
        = self_play_next ctx mcts_iters sample (move_count + i)
            ((self_play_searchInputs ctx mcts_iters sample fuel move_count
                t).getD i d) := by
  intro fuel
  induction fuel with
  | zero =>
    intro mc i t d h
    simp [self_play_searchInputs] at h
  | succ fuel ih =>
    intro mc i t d h
    simp only [self_play_searchInputs] at h ⊢
    by_cases ht : (getNode t.nodes t.root).is_terminal = true
    · rw [if_pos ht] at h
      simp at h
    · rw [if_neg ht] at h ⊢
      cases i with
      | zero =>
        rw [List.getD_cons_succ, List.getD_cons_zero, Nat.add_zero]
        have hlen : 0 < (self_play_searchInputs ctx mcts_iters sample fuel
            (mc + 1) (self_play_next ctx mcts_iters sample mc t)).length := by
          simp only [List.length_cons] at h
          omega
        exact searchInputs_head ctx mcts_iters sample fuel (mc + 1)
          (self_play_next ctx mcts_iters sample mc t) d
          (List.ne_nil_of_length_pos hlen)
      | succ j =>
        rw [List.getD_cons_succ, List.getD_cons_succ]
        have h2 : j + 1 < (self_play_searchInputs ctx mcts_iters sample fuel
            (mc + 1) (self_play_next ctx mcts_iters sample mc t)).length := by
          simp only [List.length_cons] at h
          omega
        have := ih (mc + 1) j (self_play_next ctx mcts_iters sample mc t) d h2
        rw [this]
        have harith : mc + 1 + j = mc + (j + 1) := by omega
        rw [harith]

attribute [local semireducible] Rat.add Rat.mul Rat.inv Rat.sub in
/-- Witness for the amended C1 on the chain game: the tree handed to
ply 1's search is ply 0's post-search tree re-rooted at the played
child. -/
theorem C1_subtree_reuse_witness :
    0 + 1 < (self_play_searchInputs chainCtx 3 headSample 10 0
        (initialTree chainGame)).length ∧
    (self_play_searchInputs chainCtx 3 headSample 10 0
        (initialTree chainGame)).getD (0 + 1) (initialTree chainGame)
      = self_play_next chainCtx 3 headSample (0 + 0)
          ((self_play_searchInputs chainCtx 3 headSample 10 0
              (initialTree chainGame)).getD 0 (initialTree chainGame)) :=
  ⟨by decide,
   C1_subtree_reuse chainCtx 3 headSample 10 0 0 (initialTree chainGame)
     (initialTree chainGame) (by decide)⟩

attribute [local semireducible] Rat.add Rat.mul Rat.inv Rat.sub in
/-- C1 counterexample: in a self-play game on the chain game (3 MCTS
iterations per ply), the tree handed to ply 1's search is NOT fresh —
its root node is already expanded, with a child node and a visited
edge (visit count 1) created during ply 0's search carried over. -/
theorem C1_fresh_tree_counterexample :
    ¬ everyPlyFreshTree chainCtx 3 headSample 10 ∧
    chainInputs.length = 2 ∧
    (getNode (chainInputs.getD 1 (initialTree chainGame)).nodes
      (chainInputs.getD 1 (initialTree chainGame)).root).expanded = true ∧
    0 < nodeVisits (getNode (chainInputs.getD 1 (initialTree chainGame)).nodes
      (chainInputs.getD 1 (initialTree chainGame)).root) := by
  unfold everyPlyFreshTree
  decide

/-- Witness for C6 on a concrete two-state trajectory. -/
theorem C6_examples_per_nonterminal_state_witness :
    (([[PyFloat.finite 1], []] : List PyState).length = 2 ∧
     ([5] : List Nat).length = 2 - 1 ∧
     ([[((5 : Nat), (1 : ℚ))]]).length = 2 - 1 ∧
     ([[PyFloat.finite 1], []] : List PyState) ≠ []) ∧
    (∃ td,
      process_self_play_data [[PyFloat.finite 1], []] [5] [[(5, 1)]] trivGame
          [(5, 0)]
        = some (td, ([[PyFloat.finite 1], []] : List PyState).dropLast, [5],
            [[(5, 1)]]) ∧
      td.length = 2 - 1 ∧
      ∀ i, i < 2 - 1 →
        (td[i]?).map (fun e => e.state)
          = (([[PyFloat.finite 1], []] : List PyState)[i]?).map
              (fun s => s.map nanToNum)) :=
  ⟨⟨by decide, by decide, by decide, by decide⟩,
   C6_examples_per_nonterminal_state [[PyFloat.finite 1], []] [5] [[(5, 1)]]
     trivGame [(5, 0)] 2 (by decide) (by decide) (by decide) (by decide)⟩

/-- Witness for C7 on a concrete two-state trajectory. -/
theorem C7_outcome_indexed_by_mover_witness :
    (([[PyFloat.finite 2], []] : List PyState) ≠ []) ∧
    (∃ td rest acts probs,
      process_self_play_data [[PyFloat.finite 2], []] [3] [[(3, 1)]] trivGame
          [(3, 0)]
        = some (td, rest, acts, probs) ∧
      ∀ i, i < td.length →
        (td[i]?).map (fun e => e.z)
          = (([[PyFloat.finite 2], []] : List PyState)[i]?).map (fun s =>
              trivGame.utility
                (([[PyFloat.finite 2], []] : List PyState).getLast (by decide))
                (trivGame.which_player s))) :=
  ⟨by decide,
   C7_outcome_indexed_by_mover [[PyFloat.finite 2], []] [3] [[(3, 1)]]
     trivGame [(3, 0)] (by decide)⟩

/-- Witness for C10 on a concrete two-state trajectory. -/
theorem C10_states_pop_frame_witness :
    (([[PyFloat.finite 3], []] : List PyState) ≠ []) ∧
    (∃ td,
      process_self_play_data [[PyFloat.finite 3], []] [7] [[(7, 1)]] trivGame
          [(7, 0)]
        = some (td, ([[PyFloat.finite 3], []] : List PyState).dropLast, [7],
            [[(7, 1)]]) ∧
      ([[PyFloat.finite 3], []] : List PyState).dropLast.length + 1
        = ([[PyFloat.finite 3], []] : List PyState).length ∧
      ([[PyFloat.finite 3], []] : List PyState).dropLast
          ++ [([[PyFloat.finite 3], []] : List PyState).getLast (by decide)]
        = [[PyFloat.finite 3], []]) :=
  ⟨by decide,
   C10_states_pop_frame [[PyFloat.finite 3], []] [7] [[(7, 1)]] trivGame
     [(7, 0)] (by decide)⟩

end AlphaGo
